import Mathlib

/-!
Shallow embedding of `src/hooks/secret_scan.py`, a pre-commit hook that
scans staged files for secret-looking content.

Texts are modelled as `List Char`, byte strings as `List Nat` (each entry
a byte value), and the ambient state that the Python code reads (existence
of the configuration file, availability of the optional `yaml` module, the
outcome of `yaml.safe_load`, the contents of the filesystem) is passed
explicitly as data.  Regex rules are modelled by the list of match start
positions they produce on a text (the Python code only ever uses
`m.start()` of each match), with concrete matchers supplied for the
pattern shapes exercised by the properties.
-/

namespace SecretScan

/-- Result of `yaml.safe_load`, as far as the code inspects it: the code
only asks `isinstance(cfg, list)` and `isinstance(x, str)` of the
elements, so every other value (mapping, number, `None`, …) is collapsed
into `other`. -/
inductive Yaml where
  | str (s : String)
  | list (xs : List Yaml)
  | other

/-- Output channel of a diagnostic message.  Python's bare `print` writes
to `stdout`. -/
inductive Chan where
  | stdout
  | stderr
deriving DecidableEq

/-- Ambient state read by `load_patterns`: whether `.githooks/patterns.yml`
exists, whether the optional `yaml` module imported successfully
(`yaml is not None`), and what `yaml.safe_load` returns or raises when it
is attempted. -/
structure LoadEnv where
  fileExists : Bool
  yamlAvailable : Bool
  parsed : Except String Yaml

/-- The built-in default pattern list `DEFAULT_PATTERNS` of
`secret_scan.py` (the raw regex source strings, transcribed verbatim;
`\x7b`/`\x7d` denote the brace characters and `\x27` the apostrophe). -/
def DEFAULT_PATTERNS : List String :=
  [ "(?i)(password|passwd|pwd)\\s*[:=]\\s*[\"\\\x27]?\\S\x7b4,\x7d[\"\\\x27]?"
  , "(?i)(api[_-]?key|apikey|token|secret|access[_-]?key)\\s*[:=]\\s*[\"\\\x27]?\\S\x7b8,\x7d[\"\\\x27]?"
  , "AKIA[0-9A-Z]\x7b16\x7d"
  , "AIza[0-9A-Za-z\\-_]\x7b35\x7d"
  , "xox[baprs]-[A-Za-z0-9-]\x7b10,\x7d"
  , "-----BEGIN (RSA|PRIVATE|OPENSSH|DSA|EC) PRIVATE KEY-----"
  , "eyJ[a-zA-Z0-9_-]\x7b10,\x7d\\.[a-zA-Z0-9._-]+\\.[a-zA-Z0-9._-]+"
  , "(?i)(?:vault|secret|token|key|credential|clientid|client_id|secret_id)[A-Za-z0-9_\\-]*\\s*[:=]\\s*[\"\\\x27]?[0-9a-fA-F]\x7b8\x7d-[0-9a-fA-F]\x7b4\x7d-[0-9a-fA-F]\x7b4\x7d-[0-9a-fA-F]\x7b4\x7d-[0-9a-fA-F]\x7b12\x7d[\"\\\x27]?"
  ]

/-- The check `isinstance(cfg, list) and all(isinstance(x, str) for x in cfg)`
performed by `load_patterns` (note: vacuously true for the empty list). -/
def isStrList : Yaml → Bool
  | .list xs => xs.all fun x => match x with
      | .str _ => true
      | _ => false
  | _ => false

/-- Extract the strings of a YAML list (the value `load_patterns` returns
when `isStrList` holds). -/
def yamlStrings : Yaml → List String
  | .list xs => xs.filterMap fun x => match x with
      | .str s => some s
      | _ => none
  | _ => []

/-- Embedding of `load_patterns` (lines 36-52).  Returns the pattern list
together with the diagnostics printed while loading; every `print` of the
Python code writes to standard output. -/
def load_patterns (env : LoadEnv) : List String × List (Chan × String) :=
  if env.fileExists = false then
    (DEFAULT_PATTERNS, [])
  else if env.yamlAvailable = false then
    (DEFAULT_PATTERNS,
      [(Chan.stdout, "[WARN] PyYAML not installed; ignoring patterns.yml and using defaults.")])
  else
    match env.parsed with
    | .ok cfg =>
        if isStrList cfg then
          (yamlStrings cfg, [])
        else
          (DEFAULT_PATTERNS,
            [(Chan.stdout, "[WARN] patterns.yml format invalid (expect top-level list). Using defaults.")])
    | .error e =>
        (DEFAULT_PATTERNS,
          [(Chan.stdout, "[WARN] Failed to parse patterns file .githooks/patterns.yml: " ++ e)])

/-- Parenthesis balance check with running depth, the failure mode of
`re.compile` relevant to the patterns in this development (an unbalanced
group such as `"("` raises `re.error`). -/
def parenDepthOk : Nat → List Char → Bool
  | d, [] => d = 0
  | d, c :: cs =>
      if c = '(' then parenDepthOk (d + 1) cs
      else if c = ')' then
        match d with
        | 0 => false
        | d' + 1 => parenDepthOk d' cs
      else parenDepthOk d cs

/-- Model of Python's `re.compile` for the patterns appearing here:
compilation fails (raises `re.error`) exactly when the parentheses of the
pattern are unbalanced; other regex failure modes are not needed by the
properties below.  A compiled pattern is represented by its source. -/
def reCompile (p : String) : Except String String :=
  if parenDepthOk 0 p.toList then .ok p
  else .error ("re.error: unbalanced parenthesis in pattern " ++ p)

/-- Embedding of `compiled = [re.compile(p) for p in patterns]` (line 79):
a list comprehension propagates the first exception, so one failing
pattern aborts the whole computation. -/
def compileAll : List String → Except String (List String)
  | [] => .ok []
  | p :: ps =>
      match reCompile p with
      | .error e => .error e
      | .ok c =>
          match compileAll ps with
          | .error e => .error e
          | .ok cs => .ok (c :: cs)

/-- The ASCII whitespace characters of Python `str.strip` (`\x0b` and
`\x0c` are vertical tab and form feed); Python additionally strips other
Unicode whitespace, which the texts of this development do not contain. -/
def isPySpace (c : Char) : Bool :=
  c = ' ' || c = '\t' || c = '\n' || c = '\r' || c = '\x0b' || c = '\x0c'

/-- Embedding of `text.count('\n', 0, k)` applied to a prefix: the number
of newline characters in a character list. -/
def countNl (cs : List Char) : Nat :=
  (cs.filter fun c => c = '\n').length

/-- The line-boundary characters of Python `str.splitlines`: newline,
carriage return, vertical tab, form feed, the file/group/record
separators, next line, and the Unicode line and paragraph separators. -/
def isLineBoundary (c : Char) : Bool :=
  c = '\n' || c = '\r' || c = '\x0b' || c = '\x0c' ||
  c = '\x1c' || c = '\x1d' || c = '\x1e' || c = '\x85' ||
  c = '\u2028' || c = '\u2029'

/-- Embedding of `str.splitlines`: the empty text has no lines, `\r\n`
counts as a single boundary, every other line-boundary character ends a
line, and a trailing boundary yields no extra empty line.  Note that the
scanner's line arithmetic (`text.count('\n', ...)`) counts only `'\n'`,
not the other boundaries this function splits on. -/
def splitlines : List Char → List (List Char)
  | [] => []
  | '\r' :: '\n' :: cs => [] :: splitlines cs
  | c :: cs =>
      if isLineBoundary c then [] :: splitlines cs
      else
        match splitlines cs with
        | [] => [[c]]
        | l :: ls => (c :: l) :: ls

/-- Embedding of `str.strip`: drop leading and trailing whitespace. -/
def strip (cs : List Char) : List Char :=
  ((cs.dropWhile isPySpace).reverse.dropWhile isPySpace).reverse

/-- The expression `text.count('\n', 0, m.start()) + 1` of line 71: the
1-based line number of the character position `s`. -/
def lineNumberAt (text : List Char) (s : Nat) : Nat :=
  countNl (text.take s) + 1

/-- The expression of lines 72-73:
`lines[line_no - 1].strip() if 0 <= line_no - 1 < len(lines) else ''`
(the lower bound `0 <= line_no - 1` always holds since `line_no >= 1`). -/
def snippetAt (text : List Char) (s : Nat) : List Char :=
  if h : lineNumberAt text s - 1 < (splitlines text).length then
    strip ((splitlines text).get ⟨lineNumberAt text s - 1, h⟩)
  else
    []

/-- One entry of the `findings` list of `scan_file`: the tuple
`(line_no, snippet, pat)`. -/
structure Finding where
  line : Nat
  snippet : List Char
  pat : String
deriving DecidableEq

/-- The finding appended for a match starting at position `s` (lines
71-74). -/
def mkFinding (text : List Char) (pat : String) (s : Nat) : Finding :=
  { line := lineNumberAt text s, snippet := snippetAt text s, pat := pat }

/-- A detection rule: its pattern source string, and the list of match
start positions `re.finditer(pat, text, flags=re.MULTILINE)` yields on a
text (the code uses nothing of a match object but `m.start()`). -/
structure Rule where
  pat : String
  matchStarts : List Char → List Nat

/-- The scanning loop of `scan_file` (lines 68-75): for each pattern in
order, for each match in discovery order, append one finding. -/
def scan_text (text : List Char) (rules : List Rule) : List Finding :=
  rules.foldl
    (fun findings r =>
      (r.matchStarts text).foldl
        (fun acc s => acc ++ [mkFinding text r.pat s]) findings)
    []

/-- Whether a byte is a UTF-8 continuation byte (`0x80`-`0xBF`). -/
def isCont (b : Nat) : Bool :=
  0x80 ≤ b && b ≤ 0xBF

/-- Lower bound of the first continuation byte admitted after a given
lead byte (UTF-8 forbids overlong encodings and surrogates). -/
def contLo (lead : Nat) : Nat :=
  if lead = 0xE0 then 0xA0 else if lead = 0xF0 then 0x90 else 0x80

/-- Upper bound of the first continuation byte admitted after a given
lead byte. -/
def contHi (lead : Nat) : Nat :=
  if lead = 0xED then 0x9F else if lead = 0xF4 then 0x8F else 0xBF

/-- Whether the first continuation byte is admissible after a lead. -/
def contOk1 (lead c : Nat) : Bool :=
  contLo lead ≤ c && c ≤ contHi lead

/-- Worker for `utf8Decode`, structurally recursive on a fuel bound:
every step consumes at least one input byte, so fuel equal to the input
length (as supplied by `utf8Decode`) never runs out. -/
def utf8DecodeAux (err : List Nat) : Nat → List Nat → List Nat
  | _, [] => []
  | 0, _ :: _ => []
  | fuel + 1, b :: bs =>
      if b ≤ 0x7F then
        b :: utf8DecodeAux err fuel bs
      else if 0xC2 ≤ b && b ≤ 0xDF then
        match bs with
        | c1 :: bs1 =>
            if isCont c1 then
              ((b - 0xC0) * 64 + (c1 - 0x80)) :: utf8DecodeAux err fuel bs1
            else err ++ utf8DecodeAux err fuel (c1 :: bs1)
        | [] => err
      else if 0xE0 ≤ b && b ≤ 0xEF then
        match bs with
        | c1 :: bs1 =>
            if contOk1 b c1 then
              match bs1 with
              | c2 :: bs2 =>
                  if isCont c2 then
                    ((b - 0xE0) * 4096 + (c1 - 0x80) * 64 + (c2 - 0x80)) ::
                      utf8DecodeAux err fuel bs2
                  else err ++ utf8DecodeAux err fuel (c2 :: bs2)
              | [] => err
            else err ++ utf8DecodeAux err fuel (c1 :: bs1)
        | [] => err
      else if 0xF0 ≤ b && b ≤ 0xF4 then
        match bs with
        | c1 :: bs1 =>
            if contOk1 b c1 then
              match bs1 with
              | c2 :: bs2 =>
                  if isCont c2 then
                    match bs2 with
                    | c3 :: bs3 =>
                        if isCont c3 then
                          ((b - 0xF0) * 262144 + (c1 - 0x80) * 4096 +
                            (c2 - 0x80) * 64 + (c3 - 0x80)) :: utf8DecodeAux err fuel bs3
                        else err ++ utf8DecodeAux err fuel (c3 :: bs3)
                    | [] => err
                  else err ++ utf8DecodeAux err fuel (c2 :: bs2)
              | [] => err
            else err ++ utf8DecodeAux err fuel (c1 :: bs1)
        | [] => err
      else err ++ utf8DecodeAux err fuel bs

/-- UTF-8 decoder over byte values, parameterized by the code points the
error handler emits for an invalid maximal subpart: `[]` models Python's
`errors='ignore'` (the mode `scan_file` uses via
`read_text(errors='ignore')`), `[0xFFFD]` models `errors='replace'`.
Output is the list of decoded code points. -/
def utf8Decode (err : List Nat) (bs : List Nat) : List Nat :=
  utf8DecodeAux err bs.length bs

/-- Decoding as `Path(path).read_text(errors='ignore')` performs it
(line 65 of the source): undecodable byte subparts are dropped. -/
def utf8DecodeIgnore (bs : List Nat) : List Nat :=
  utf8Decode [] bs

/-- Embedding of `scan_file` (lines 63-75).  The `read_text` call is
modelled by its outcome: `none` when reading raised (missing or
unreadable path, caught by the `except` that returns `[]`), `some bs`
when the path yielded the byte content `bs`, which is decoded with
errors ignored and scanned. -/
def scan_file (readResult : Option (List Nat)) (rules : List Rule) : List Finding :=
  match readResult with
  | none => []
  | some bs => scan_text ((utf8DecodeIgnore bs).map Char.ofNat) rules

/-- Match attempt of a plain literal regex at the head of a suffix:
succeeds with the literal's length when the literal is a prefix. -/
def litLen (lit : List Char) (s : List Char) : Option Nat :=
  if lit.isPrefixOf s then some lit.length else none

/-- Worker for `reFindIter`: try the matcher at each position from `i`,
recording a match start and skipping the match (at least one position)
when it succeeds, else advancing one position; positions `0` to
`text.length` inclusive are tried, as `re.finditer` does. -/
def findIterAux (matchLen : List Char → Option Nat) (text : List Char) :
    Nat → Nat → List Nat
  | _, 0 => []
  | i, fuel + 1 =>
      if i > text.length then []
      else
        match matchLen (text.drop i) with
        | some n => i :: findIterAux matchLen text (i + max n 1) fuel
        | none =>
            if i = text.length then []
            else findIterAux matchLen text (i + 1) fuel

/-- Model of `re.finditer`: scan left to right, non-overlapping matches,
leftmost-first, given a matcher that reports the match length at the head
of a suffix. -/
def reFindIter (matchLen : List Char → Option Nat) (text : List Char) : List Nat :=
  findIterAux matchLen text 0 (text.length + 1)

/-- A rule whose regex is the plain literal `AB`, used to exhibit the
effect of the decoding mode on scan results. -/
def abRule : Rule :=
  { pat := "AB", matchStarts := reFindIter (litLen ("AB".toList)) }

/-- The eligible extensions of `EXT_RE` (line 34). -/
def eligibleExts : List String :=
  ["py", "java", "js", "ts", "json", "yaml", "yml", "env", "properties", "sh"]

/-- Embedding of `EXT_RE.search(f)` as a Boolean: the case-insensitive
regex `\.(py|…|sh)$` finds a match iff the lower-cased path ends with a
dot followed by one of the extensions, optionally before a final newline
(the `$` of a non-MULTILINE pattern also matches just before a trailing
newline). -/
def extEligible (p : List Char) : Bool :=
  let lp := p.map Char.toLower
  eligibleExts.any fun e =>
    ("." ++ e).toList.isSuffixOf lp || ("." ++ e ++ "\n").toList.isSuffixOf lp

/-- Python `dict` assignment `d[k] = v` on an association list that keeps
insertion order: an existing key keeps its position and gets the new
value, a new key is appended. -/
def dictInsert (acc : List (List Char × List Finding)) (k : List Char)
    (v : List Finding) : List (List Char × List Finding) :=
  if acc.any fun e => e.1 = k then
    acc.map fun e => if e.1 = k then (k, v) else e
  else
    acc ++ [(k, v)]

/-- The aggregation loop of `main` (lines 82-89): skip paths whose
extension is not eligible, scan the rest, and record an entry in
`secrets_found` exactly when the scan produced at least one finding.
The filesystem is the function `fs` from path to read outcome. -/
def runScan (staged : List (List Char)) (fs : List Char → Option (List Nat))
    (rules : List Rule) : List (List Char × List Finding) :=
  staged.foldl
    (fun acc f =>
      if extEligible f then
        let ms := scan_file (fs f) rules
        if ms.isEmpty then acc else dictInsert acc f ms
      else acc)
    []

/-- A fold whose step preserves a Boolean invariant of the accumulator
preserves it over the whole list. -/
theorem foldl_preserve {α β : Type} (p : β → Bool) (step : β → α → β)
    (hstep : ∀ acc x, p acc = true → p (step acc x) = true) :
    ∀ (l : List α) (acc : β), p acc = true → p (l.foldl step acc) = true
  | [], _, h => h
  | x :: l, acc, h => foldl_preserve p step hstep l (step acc x) (hstep acc x h)

/-- `dictInsert` preserves an entry-wise invariant when the inserted
entry satisfies it. -/
theorem dictInsert_all (p : List Char × List Finding → Bool)
    (acc : List (List Char × List Finding)) (k : List Char) (v : List Finding)
    (hacc : acc.all p = true) (hkv : p (k, v) = true) :
    (dictInsert acc k v).all p = true := by
  unfold dictInsert
  split
  · rw [List.all_eq_true] at hacc ⊢
    intro e he
    rw [List.mem_map] at he
    obtain ⟨e', he', rfl⟩ := he
    by_cases hk : e'.1 = k
    · simp only [hk, if_pos]
      exact hkv
    · simp only [hk, if_neg, if_false]
      exact hacc e' he'
  · rw [List.all_eq_true] at hacc ⊢
    intro e he
    rw [List.mem_append] at he
    cases he with
    | inl h => exact hacc e h
    | inr h =>
        rw [List.mem_singleton] at h
        subst h
        exact hkv

/-- Every entry `runScan` records has an eligible path and a non-empty
finding list. -/
theorem runScan_all (staged : List (List Char)) (fs : List Char → Option (List Nat))
    (rules : List Rule) :
    ((runScan staged fs rules).all fun e => extEligible e.1 && !e.2.isEmpty) = true := by
  unfold runScan
  refine foldl_preserve
    (fun acc : List (List Char × List Finding) =>
      acc.all fun e => extEligible e.1 && !e.2.isEmpty)
    _ ?_ staged [] rfl
  intro acc f hacc
  by_cases he : extEligible f = true
  · simp only [he, if_true]
    by_cases hm : (scan_file (fs f) rules).isEmpty = true
    · simp only [hm, if_true]
      exact hacc
    · simp only [hm, if_false]
      apply dictInsert_all _ _ _ _ hacc
      simp only [he, Bool.true_and, Bool.not_eq_true']
      simp only [Bool.not_eq_true] at hm
      exact hm
  · simp only [he, if_false]
    exact hacc

/-- The aggregation of `main` reads the filesystem only at eligible
paths: two filesystems that agree on every eligible path produce the
same result map. -/
theorem runScan_congr (staged : List (List Char)) (fs fs' : List Char → Option (List Nat))
    (rules : List Rule) (h : ∀ q, extEligible q = true → fs q = fs' q) :
    runScan staged fs rules = runScan staged fs' rules := by
  unfold runScan
  suffices hgen : ∀ (l : List (List Char)) (acc : List (List Char × List Finding)),
      l.foldl (fun acc f => if extEligible f then
          (let ms := scan_file (fs f) rules
           if ms.isEmpty then acc else dictInsert acc f ms) else acc) acc
        = l.foldl (fun acc f => if extEligible f then
            (let ms := scan_file (fs' f) rules
             if ms.isEmpty then acc else dictInsert acc f ms) else acc) acc by
    exact hgen staged []
  intro l
  induction l with
  | nil => intro acc; rfl
  | cons f l ih =>
      intro acc
      simp only [List.foldl_cons]
      by_cases he : extEligible f = true
      · rw [h f he]
        exact ih _
      · simp only [he, if_neg, if_false]
        exact ih _

/-- Claim C1 (amended): for a configuration that is absent, that cannot
be parsed because the optional YAML module is missing, whose parse
raises, or whose parsed value is not a list of strings, `load_patterns`
returns exactly `DEFAULT_PATTERNS` and the run does not abort; a
configuration that parses to the empty list, however, is accepted as-is,
so `load_patterns` returns the empty pattern list, not the defaults. -/
theorem load_patterns_fallback_amended :
    (∀ (y : Bool) (p : Except String Yaml),
      (load_patterns ⟨false, y, p⟩).1 = DEFAULT_PATTERNS)
    ∧ (∀ p : Except String Yaml, (load_patterns ⟨true, false, p⟩).1 = DEFAULT_PATTERNS)
    ∧ (∀ e : String, (load_patterns ⟨true, true, Except.error e⟩).1 = DEFAULT_PATTERNS)
    ∧ (∀ cfg : Yaml, isStrList cfg = false →
        (load_patterns ⟨true, true, Except.ok cfg⟩).1 = DEFAULT_PATTERNS)
    ∧ (load_patterns ⟨true, true, Except.ok (Yaml.list [])⟩).1 = [] := by
  refine ⟨fun y p => rfl, fun p => rfl, fun e => rfl, fun cfg h => ?_, rfl⟩
  simp [load_patterns, h]

/-- Witness for C1: a concrete wrong-shape document (a YAML mapping,
collapsed to `Yaml.other`) falls back to the defaults. -/
theorem load_patterns_fallback_amended_witness :
    isStrList Yaml.other = false
    ∧ (load_patterns ⟨true, true, Except.ok Yaml.other⟩).1 = DEFAULT_PATTERNS :=
  ⟨by decide, load_patterns_fallback_amended.2.2.2.1 Yaml.other (by decide)⟩

/-- Counterexample to C1 as stated: a configuration document that parses
to the empty list is accepted (the `all` check over an empty list is
vacuously true), so `load_patterns` returns `[]`, not the built-in
default pattern list. -/
theorem load_patterns_empty_list_counterexample :
    (load_patterns ⟨true, true, Except.ok (Yaml.list [])⟩).1 = []
    ∧ ([] : List String) ≠ DEFAULT_PATTERNS :=
  ⟨rfl, by decide⟩

/-- Claim C4 (amended): a pattern string that fails to compile as a
regex makes the whole rule-set compilation of `main` raise: no compiled
list is produced at all, so the run aborts before scanning — the
offending rule is not dropped and nothing is logged. -/
theorem invalid_pattern_aborts_compile :
    ∀ (ps : List String) (p : String), p ∈ ps → (reCompile p).isOk = false →
      (compileAll ps).isOk = false := by
  intro ps p
  induction ps with
  | nil => intro h _; cases h
  | cons q ps ih =>
      intro hmem hbad
      rw [List.mem_cons] at hmem
      unfold compileAll
      cases hmem with
      | inl h =>
          subst h
          cases hrc : reCompile p with
          | error e => simp [Except.isOk, Except.toBool]
          | ok c =>
              rw [hrc] at hbad
              simp [Except.isOk, Except.toBool] at hbad
      | inr h =>
          cases hrc : reCompile q with
          | error e => simp [Except.isOk, Except.toBool]
          | ok c =>
              have hr := ih h hbad
              cases hca : compileAll ps with
              | error e => simp [Except.isOk, Except.toBool]
              | ok cs =>
                  rw [hca] at hr
                  simp [Except.isOk, Except.toBool] at hr

/-- Witness for C4: the unbalanced pattern `"("` inside a two-pattern
list makes the whole compilation fail. -/
theorem invalid_pattern_aborts_compile_witness :
    ("(" ∈ ["(", "abc"])
    ∧ (reCompile ("(")).isOk = false
    ∧ (compileAll ["(", "abc"]).isOk = false :=
  ⟨by decide, by decide,
    invalid_pattern_aborts_compile ["(", "abc"] ("(") (by decide) (by decide)⟩

/-- Counterexample to C4 as stated: with the invalid pattern `"("` next
to a valid default pattern, compilation yields no rule set at all
(the exception aborts the run) instead of dropping only the bad rule. -/
theorem invalid_pattern_aborts_compile_counterexample :
    (compileAll ["(", "AKIA[0-9A-Z]\x7b16\x7d"]).isOk = false
    ∧ (reCompile ("AKIA[0-9A-Z]\x7b16\x7d")).isOk = true :=
  ⟨by decide, by decide⟩

/-- Claim C6: a path whose extension is not in the allow-list is skipped
without being opened: every recorded result entry has an eligible path,
the result map depends on the filesystem only at eligible paths, and the
path `secrets.bin` is ineligible. -/
theorem ineligible_paths_never_scanned (staged : List (List Char))
    (fs fs' : List Char → Option (List Nat)) (rules : List Rule) :
    ((runScan staged fs rules).all fun e => extEligible e.1) = true
    ∧ ((∀ q, extEligible q = true → fs q = fs' q) →
        runScan staged fs rules = runScan staged fs' rules)
    ∧ extEligible ("secrets.bin".toList) = false := by
  refine ⟨?_, runScan_congr staged fs fs' rules, by decide⟩
  have h := runScan_all staged fs rules
  rw [List.all_eq_true] at h ⊢
  intro e he
  have hb := h e he
  rw [Bool.and_eq_true] at hb
  exact hb.1

/-- Witness for C6: a staged `secrets.bin` containing the bytes of
`AKIA` produces the same (empty) result map as a filesystem on which the
file does not exist at all — its content is never consulted. -/
theorem ineligible_paths_never_scanned_witness :
    extEligible ("secrets.bin".toList) = false
    ∧ runScan [("secrets.bin".toList)]
        (fun q => if q = "secrets.bin".toList then some [65, 75, 73, 65] else none) [abRule]
      = runScan [("secrets.bin".toList)] (fun _ => none) [abRule] := by
  refine ⟨by decide, (ineligible_paths_never_scanned _ _ _ _).2.1 ?_⟩
  intro q hq
  by_cases h : q = "secrets.bin".toList
  · subst h
    exact absurd hq (by decide)
  · exact if_neg h

/-- Claim C8 (amended): every diagnostic `load_patterns` emits goes to
standard output (Python `print` with no file argument), not to an error
stream, and the missing-file fallback emits no diagnostic at all. -/
theorem fallback_warnings_go_to_stdout (env : LoadEnv) :
    ((load_patterns env).2.all fun w => decide (w.1 = Chan.stdout)) = true
    ∧ (∀ (y : Bool) (p : Except String Yaml), (load_patterns ⟨false, y, p⟩).2 = []) := by
  constructor
  · rcases env with ⟨fe, ya, pr⟩
    cases fe with
    | false => rfl
    | true =>
        cases ya with
        | false => rfl
        | true =>
            cases pr with
            | error e => rfl
            | ok cfg => by_cases h : isStrList cfg = true <;> simp [load_patterns, h]
  · intro y p
    rfl

/-- Counterexample to C8 as stated: the missing-parser fallback emits
its warning on standard output, not on an error stream. -/
theorem fallback_warning_stream_counterexample :
    (load_patterns ⟨true, false, Except.ok Yaml.other⟩).2
      = [(Chan.stdout, "[WARN] PyYAML not installed; ignoring patterns.yml and using defaults.")]
    ∧ Chan.stdout ≠ Chan.stderr :=
  ⟨rfl, by decide⟩

end SecretScan
